import Mathlib

/-!
Shallow embedding of the file-delivery pipeline of `bot.py` and of the
`/event` endpoint of `flask_backend.py` (telegram_freestorage_poc).

Conventions used throughout:
* File contents are byte lists, modelled as `List Nat`.
* The content fingerprint (`calculate_md5`) is abstracted as a parameter
  `hashFn : List Nat → Nat`; the development only relies on its determinism
  (equal byte content gives an equal fingerprint).
* Python dicts keyed by strings (`file_history`, `error_messages`, ...) are
  association lists handled through `dictGet` / `dictSet` / `dictRemove`,
  which mirror dict lookup, dict assignment and `del` (first-occurrence
  semantics; the program builds them exclusively through `dictSet`, which
  keeps keys unique).
* Network effects of `bot.send_document` are modelled by an outcome oracle
  `Nat → AttemptOutcome` giving the result of each attempt inside
  `send_file`; the `SendState` record logs what the code observably did
  (messages posted, messages deleted, sleeps performed).
* Wall-clock timestamps and floating point telemetry (`last_sent`,
  `processing_time`, `upload_speed`) are not control data anywhere in the
  program and are omitted from the record type.
-/

/-- Python dict lookup: first entry whose key matches, `none` if absent. -/
def dictGet {β : Type} (k : String) : List (String × β) → Option β
  | [] => none
  | q :: rest => if q.1 = k then some q.2 else dictGet k rest

/-- Python dict assignment `d[k] = v`: replace the entry in place if the key
is present, otherwise append a new entry at the end (insertion order). -/
def dictSet {β : Type} (k : String) (v : β) : List (String × β) → List (String × β)
  | [] => [(k, v)]
  | q :: rest => if q.1 = k then (k, v) :: rest else q :: dictSet k v rest

/-- Python `del d[k]`: drop the (unique) entry with key `k`. -/
def dictRemove {β : Type} (k : String) : List (String × β) → List (String × β)
  | [] => []
  | q :: rest => if q.1 = k then rest else q :: dictRemove k rest

/-- Number of entries carrying key `k`. -/
def countKeys {β : Type} (k : String) (l : List (String × β)) : Nat :=
  l.countP (fun q => q.1 == k)

/-- `os.path.basename`: the last `/`-separated component of a path. -/
def basename (p : String) : String :=
  (p.splitOn "/").getLastD p

/-- `MAX_FILE_SIZE` (bot.py line 59): 45 MiB chunk/payload ceiling. -/
def MAX_FILE_SIZE : Nat := 45 * 1024 * 1024

/-- `max_retries` in `send_file` (bot.py line 143). -/
def max_retries : Nat := 3

/-- `retry_delay` in `send_file` (bot.py line 144). -/
def retry_delay : Nat := 5

/-- Python `f'{n:03d}'`: decimal digits of `n`, left-padded with zeros to
width at least 3 (used for chunk names, bot.py line 219). -/
def pad3 (n : Nat) : String :=
  let s := toString n
  if s.length < 3 then String.mk (List.replicate (3 - s.length) '0') ++ s else s

/-- Outcome of one delivery attempt inside `send_file`, as distinguished by
its exception handler (bot.py lines 146-181): the document goes through, a
`TelegramError` with HTTP status 429 carrying a `Retry-After` duration is
raised, or some other `TelegramError` is raised. -/
inductive AttemptOutcome where
  | success
  | rateLimited (retryAfter : Nat)
  | otherError
deriving DecidableEq

/-- Observable state threaded through `send_file`:
`errorMessages` is the global `error_messages` dict (path of the failed send
→ message id of the posted error notice), `nextMsgId` models the id the
provider will assign to the next posted message, `deletedMsgs` logs ids of
messages deleted via `bot.delete_message`, `postedNotices` logs ids of error
notices posted via `bot.send_message`, and `waits` logs the durations of the
`asyncio.sleep` calls performed, in order. -/
structure SendState where
  errorMessages : List (String × Nat)
  nextMsgId : Nat
  deletedMsgs : List Nat
  postedNotices : List Nat
  waits : List Nat
deriving DecidableEq

/-- The `for attempt in range(max_retries)` loop of `send_file`
(bot.py lines 146-183), with `fuel = max_retries - attempt` remaining
iterations.  On success (lines 153-167) a pending error notice for this path
is deleted and its `error_messages` entry removed.  On a 429 with
`Retry-After` (lines 169-172) the code sleeps the signalled duration and the
`for` loop moves on to the next attempt.  On any other error (lines 173-181)
it sleeps `retry_delay` unless this was the last attempt, in which case it
posts an error notice, records its message id, and returns failure.  Falling
out of the loop (line 183) returns failure. -/
def sendFileLoop (path : String) (outcomes : Nat → AttemptOutcome) :
    Nat → SendState → Nat → Bool × SendState
  | _, st, 0 => (false, st)
  | attempt, st, fuel + 1 =>
    match outcomes attempt with
    | .success =>
      match dictGet path st.errorMessages with
      | some mid =>
        (true, { st with deletedMsgs := st.deletedMsgs ++ [mid],
                         errorMessages := dictRemove path st.errorMessages })
      | none => (true, st)
    | .rateLimited r =>
      sendFileLoop path outcomes (attempt + 1) { st with waits := st.waits ++ [r] } fuel
    | .otherError =>
      if fuel = 0 then
        (false, { st with postedNotices := st.postedNotices ++ [st.nextMsgId],
                          errorMessages := dictSet path st.nextMsgId st.errorMessages,
                          nextMsgId := st.nextMsgId + 1 })
      else
        sendFileLoop path outcomes (attempt + 1)
          { st with waits := st.waits ++ [retry_delay] } fuel

/-- `send_file` (bot.py lines 141-183). -/
def send_file (path : String) (outcomes : Nat → AttemptOutcome) (st : SendState) :
    Bool × SendState :=
  sendFileLoop path outcomes 0 st max_retries

/-- The chunking loop of `split_and_send_zip` (bot.py lines 213-221):
repeatedly `read(chunk_size)` until the file is exhausted.  `fuel` bounds the
number of reads; it is instantiated with the file length, which suffices for
any positive chunk size. -/
def chunksOfFuel (M : Nat) : Nat → List Nat → List (List Nat)
  | _, [] => []
  | 0, _ :: _ => []
  | fuel + 1, x :: xs => (x :: xs).take M :: chunksOfFuel M fuel ((x :: xs).drop M)

/-- The chunk sequence produced by splitting `l` into pieces of `M` bytes. -/
def chunksOf (M : Nat) (l : List Nat) : List (List Nat) :=
  chunksOfFuel M l.length l

/-- Result of the send-all-chunks loop: `ok` is the boolean returned by
`split_and_send_zip`, `counter` the value of the global `file_counter` after
the loop (incremented once per successfully sent part, bot.py line 231),
`sent` the chunk files successfully delivered (name and bytes, in order),
`calls` the number of `send_file` invocations made, `sst` the final
transport state. -/
structure SplitResult where
  ok : Bool
  counter : Nat
  sent : List (String × List Nat)
  calls : Nat
  sst : SendState
deriving DecidableEq

/-- The per-part send loop of `split_and_send_zip` (bot.py lines 213-231):
chunk number `fileNumber` is written to `<base>.<NNN>` (1-based, zero padded,
line 219) and sent; a failed part aborts the whole loop immediately
(lines 226-228) and the already-sent parts are not retracted; a successful
part advances `file_number` and the global `file_counter` (lines 230-231). -/
def splitLoop (base : String) (outcomes : Nat → Nat → AttemptOutcome) :
    List (List Nat) → Nat → Nat → SendState → SplitResult
  | [], _, counter, sst => { ok := true, counter := counter, sent := [], calls := 0, sst := sst }
  | c :: cs, fileNumber, counter, sst =>
    let name := base ++ "." ++ pad3 fileNumber
    let res := send_file name (outcomes fileNumber) sst
    if res.1 then
      let r := splitLoop base outcomes cs (fileNumber + 1) (counter + 1) res.2
      { r with sent := (name, c) :: r.sent, calls := r.calls + 1 }
    else
      { ok := false, counter := counter, sent := [], calls := 1, sst := res.2 }

/-- `split_and_send_zip` (bot.py lines 199-243) on an artifact that is
already its own transport container (which is the case on every reachable
call: the caller either passes a freshly-built `.zip`, with `skip_zip=True`,
or an uncompressed file under `compression_level = none`, in which case
`create_zip_archive` returns its input unchanged).  The second component is
the Python function's second return value: `original_size` of its argument
on success, `0` on failure (bot.py lines 228, 239).  The reassembly
instruction message sent after the last part (line 233) carries no control
data and is not modelled. -/
def split_and_send_zip (base : String) (artifact : List Nat)
    (outcomes : Nat → Nat → AttemptOutcome) (counter : Nat) (sst : SendState) :
    SplitResult × Nat :=
  let r := splitLoop base outcomes (chunksOf MAX_FILE_SIZE artifact) 1 counter sst
  (r, if r.ok then artifact.length else 0)

/-- One `file_history` ledger record (bot.py lines 364-375), restricted to
the fields that carry control data; timestamps and float telemetry are
omitted. -/
structure FileRecord where
  hash : Nat
  sendSuccess : Bool
  encrypted : Bool
  encryptionAlgorithm : String
  fileId : Nat
  fileSize : Nat
  processedSize : Nat
deriving DecidableEq

/-- Global mutable state of the bot: the in-memory `file_history` dict, the
`file_counter`, the last contents persisted to `data/bot_file_history.json`
by `save_data`, and the transport state. -/
structure BotState where
  fileHistory : List (String × FileRecord)
  fileCounter : Nat
  persisted : List (String × FileRecord)
  sst : SendState
deriving DecidableEq

/-- The global-dedup check of `process_file` (bot.py line 319):
`any(file_data['hash'] == file_hash for file_data in file_history.values())`. -/
def hashExists (h : Nat) (hist : List (String × FileRecord)) : Bool :=
  hist.any (fun q => q.2.hash == h)

/-- The staleness check of `process_file` (bot.py line 342):
`file_path not in file_history or file_history[file_path]['hash'] != file_hash`. -/
def isStaleOrNew (path : String) (h : Nat) (hist : List (String × FileRecord)) : Bool :=
  match dictGet path hist with
  | none => true
  | some r => r.hash != h

/-- The configuration values read by `process_file`. -/
structure Config where
  compressionLevel : String
  enableEncryption : Bool
  allowedExts : List String
deriving DecidableEq

/-- The extension allow-list filter (bot.py line 323): with a non-empty
allow-list, the lower-cased base name must end in one of the extensions. -/
def extOk (cfg : Config) (path : String) : Bool :=
  cfg.allowedExts.isEmpty ||
    cfg.allowedExts.any (fun ext => (basename path).toLower.endsWith ext)

/-- Whether `process_file` builds a zip container (bot.py line 328): it does
unless compression is `none`, or the file is already a `.zip` and encryption
is off. -/
def shouldArchive (cfg : Config) (path : String) : Bool :=
  !(cfg.compressionLevel == "none" || (path.toLower.endsWith ".zip" && !cfg.enableEncryption))

/-- The bytes of the artifact `process_file` will deliver: the zip container
built by the archiver (abstracted as `zipBytes`) when archiving runs,
otherwise the source bytes themselves. -/
def mkArtifact (cfg : Config) (zipBytes : List Nat → List Nat) (path : String)
    (content : List Nat) : List Nat :=
  if shouldArchive cfg path then zipBytes content else content

/-- Base name of the artifact actually sent (`send_path`): the source base
name with `.zip` appended when the archiver ran (bot.py line 331), the
source base name itself otherwise (line 329). -/
def sendBaseName (cfg : Config) (path : String) : String :=
  if shouldArchive cfg path then basename path ++ ".zip" else basename path

/-- What one `process_file` call observably did: whether the archiver built
a container, how many `send_file` calls were made, which units were
successfully delivered (name and bytes), and whether the call ended in the
terminal-success branch (bot.py line 358) that commits the ledger. -/
structure ProcessLog where
  archived : Bool
  sendCalls : Nat
  sent : List (String × List Nat)
  ok : Bool
deriving DecidableEq

/-- `process_file` (bot.py lines 310-381).  Stages, in source order: the
global hash-dedup early return (lines 319-321), the extension filter
(lines 323-325), the archive step (lines 327-340), the staleness check
(line 342), split-and-send for oversized artifacts (lines 345-350) or a
single `send_file` (lines 352-356), and on success the `file_counter`
increment, ledger upsert and synchronous persist (lines 358-376).  On
failure nothing is committed (lines 379-381); the backend event posts are
fire-and-forget and carry no pipeline state. -/
def process_file (cfg : Config) (zipBytes : List Nat → List Nat) (hashFn : List Nat → Nat)
    (outcomes : Nat → Nat → AttemptOutcome) (st : BotState) (path : String)
    (content : List Nat) : BotState × ProcessLog :=
  let h := hashFn content
  if hashExists h st.fileHistory then
    (st, { archived := false, sendCalls := 0, sent := [], ok := false })
  else if !(extOk cfg path) then
    (st, { archived := false, sendCalls := 0, sent := [], ok := false })
  else
    let archived := shouldArchive cfg path
    let artifact := mkArtifact cfg zipBytes path content
    let sendBase := sendBaseName cfg path
    if isStaleOrNew path h st.fileHistory then
      if artifact.length > MAX_FILE_SIZE then
        let rz := split_and_send_zip sendBase artifact outcomes st.fileCounter st.sst
        if rz.1.ok then
          let newCounter := rz.1.counter + 1
          let record : FileRecord :=
            { hash := h, sendSuccess := true, encrypted := cfg.enableEncryption,
              encryptionAlgorithm := if cfg.enableEncryption then "AES" else "None",
              fileId := newCounter, fileSize := content.length, processedSize := rz.2 }
          let hist := dictSet path record st.fileHistory
          ({ fileHistory := hist, fileCounter := newCounter, persisted := hist,
             sst := rz.1.sst },
           { archived := archived, sendCalls := rz.1.calls, sent := rz.1.sent, ok := true })
        else
          ({ st with fileCounter := rz.1.counter, sst := rz.1.sst },
           { archived := archived, sendCalls := rz.1.calls, sent := rz.1.sent, ok := false })
      else
        let res := send_file sendBase (outcomes 1) st.sst
        if res.1 then
          let newCounter := st.fileCounter + 1
          let record : FileRecord :=
            { hash := h, sendSuccess := true, encrypted := cfg.enableEncryption,
              encryptionAlgorithm := if cfg.enableEncryption then "AES" else "None",
              fileId := newCounter, fileSize := content.length,
              processedSize := artifact.length }
          let hist := dictSet path record st.fileHistory
          ({ fileHistory := hist, fileCounter := newCounter, persisted := hist,
             sst := res.2 },
           { archived := archived, sendCalls := 1, sent := [(sendBase, artifact)],
             ok := true })
        else
          ({ st with sst := res.2 },
           { archived := archived, sendCalls := 1, sent := [], ok := false })
    else
      (st, { archived := archived, sendCalls := 0, sent := [], ok := false })

/-- Ledger-wide maximum `file_id`, `0` on an empty ledger. -/
def maxFileId (hist : List (String × FileRecord)) : Nat :=
  hist.foldr (fun q m => max q.2.fileId m) 0

/-- The `file_counter` recovery at startup (bot.py line 419):
`max(file_history.values(), key=lambda x: x.get('file_id', 0), default={}).get('file_id', 0)`,
i.e. the largest stored `file_id`, or `0` when the ledger is empty. -/
def recoverFileCounter (hist : List (String × FileRecord)) : Nat :=
  maxFileId hist

/-- Modelled from the spec: `nextSequenceId() -> int` as worded in §4.2 —
"returns ledger-wide max `sequenceId` + 1; 0 if ledger empty".  This is the
spec-side definition used for refinement comparison; the code has no such
function, only the startup recovery `recoverFileCounter` and the
increment-then-assign in `process_file`. -/
def nextSequenceId_spec (hist : List (String × FileRecord)) : Nat :=
  if hist.isEmpty then 0 else maxFileId hist + 1

/-- How one scan-cycle candidate behaves when `process_file` runs on it:
either an exception escapes (e.g. `IOError` from `calculate_md5` or
`os.path.getsize`, bot.py lines 314-315, which no handler inside
`process_file` catches), or processing runs to completion on the given
bytes. -/
inductive CandidateStep where
  | raises
  | proceeds (content : List Nat)
deriving DecidableEq

/-- Result of the per-cycle candidate loop (bot.py lines 458-459):
the state after the loop, the candidates fully processed, and whether an
exception escaped the loop into `main`'s `except` clause (line 466). -/
structure CycleResult where
  state : BotState
  processed : List String
  aborted : Bool
deriving DecidableEq

/-- The `for file_path in sorted_files: await process_file(file_path)` loop
of `main` (bot.py lines 458-459).  There is no per-candidate handler: an
exception raised while processing one candidate propagates immediately,
leaving the remaining candidates unprocessed in this cycle. -/
def runCandidates (pf : BotState → String → List Nat → BotState × ProcessLog) :
    BotState → List (String × CandidateStep) → CycleResult
  | st, [] => { state := st, processed := [], aborted := false }
  | st, (_, .raises) :: _ => { state := st, processed := [], aborted := true }
  | st, (path, .proceeds content) :: rest =>
    let r := runCandidates pf (pf st path content).1 rest
    { r with processed := path :: r.processed }

/-- One iteration of `main`'s `while True` loop (bot.py lines 441-468): run
the candidate loop, then sleep `CHECK_INTERVAL` — on the normal path
(line 461) and equally in the `except Exception` handler (line 468).  The
second component is the duration slept before the next cycle. -/
def runCycle (pf : BotState → String → List Nat → BotState × ProcessLog)
    (interval : Nat) (st : BotState) (cands : List (String × CandidateStep)) :
    CycleResult × Nat :=
  (runCandidates pf st cands, interval)

/-- JSON payload of `POST /event` (flask_backend.py lines 152-166), fields
actually read by `handle_event`. -/
structure BackendEvent where
  type : String
  file : String
  file_id : Nat
  hash : Nat
  file_size : Nat
deriving DecidableEq

/-- One backend `file_history` record (flask_backend.py lines 156-167),
control-data fields only. -/
structure BackendRecord where
  hash : Nat
  send_success : Bool
  encrypted : Bool
  file_id : Nat
  file_size : Nat
deriving DecidableEq

/-- Backend state: the in-memory `events` list and `file_history` dict, and
the last contents written to `data/backend_file_history.json`. -/
structure BackendState where
  events : List BackendEvent
  fileHistory : List (String × BackendRecord)
  persisted : List (String × BackendRecord)
deriving DecidableEq

/-- `save_file_history` (flask_backend.py lines 174-178): dump the in-memory
`file_history` to `data/backend_file_history.json`. -/
def save_file_history (st : BackendState) : BackendState :=
  { st with persisted := st.fileHistory }

/-- `handle_event` (flask_backend.py lines 148-171): a falsy payload gets a
400; any truthy payload is appended to `events`; only a payload with
`type == 'success'` additionally upserts `file_history` and persists it.
`enc` is the module-level `ENABLE_ENCRYPTION` flag. -/
def handle_event (enc : Bool) (st : BackendState) (data : Option BackendEvent) :
    BackendState × Nat :=
  match data with
  | none => (st, 400)
  | some e =>
    let st1 := { st with events := st.events ++ [e] }
    if e.type == "success" then
      let record : BackendRecord :=
        { hash := e.hash, send_success := true, encrypted := enc,
          file_id := e.file_id, file_size := e.file_size }
      let st2 := { st1 with fileHistory := dictSet e.file record st1.fileHistory }
      (save_file_history st2, 200)
    else (st1, 200)

/-- The chunk-name/bytes pairs `splitLoop` produces for a chunk list,
starting at part number `fn`: part `i` is named `<base>.<pad3 i>`. -/
def namedChunks (base : String) : Nat → List (List Nat) → List (String × List Nat)
  | _, [] => []
  | fn, c :: cs => (base ++ "." ++ pad3 fn, c) :: namedChunks base (fn + 1) cs

/-- Per-part oracle under which every attempt of every part succeeds. -/
def allOk : Nat → Nat → AttemptOutcome := fun _ _ => .success

/-- Per-part oracle under which parts before `j` succeed and part `j` (and
any later part) fails with a non-rate-limit transport error on every
attempt. -/
def failFromPart (j : Nat) : Nat → Nat → AttemptOutcome :=
  fun part _ => if part < j then .success else .otherError

/-- Initial, empty transport state. -/
def sst0 : SendState :=
  { errorMessages := [], nextMsgId := 0, deletedMsgs := [], postedNotices := [], waits := [] }

/-! ### Association-list (Python dict) lemmas -/

theorem dictGet_dictSet_self {β : Type} (k : String) (v : β) (l : List (String × β)) :
    dictGet k (dictSet k v l) = some v := by
  induction l with
  | nil => simp [dictGet, dictSet]
  | cons q rest ih =>
    by_cases h : q.1 = k
    · simp [dictSet, h, dictGet]
    · simp [dictSet, h, dictGet, ih]

theorem mem_dictSet {β : Type} (k : String) (v : β) (l : List (String × β)) (q : String × β)
    (hq : q ∈ dictSet k v l) : q = (k, v) ∨ q ∈ l := by
  induction l with
  | nil => simpa [dictSet] using hq
  | cons p rest ih =>
    by_cases h : p.1 = k
    · simp only [dictSet, h, if_pos] at hq
      rcases List.mem_cons.mp hq with h1 | h1
      · exact Or.inl h1
      · exact Or.inr (List.mem_cons_of_mem _ h1)
    · simp only [dictSet, h, if_neg, not_false_iff] at hq
      rcases List.mem_cons.mp hq with h1 | h1
      · exact Or.inr (h1 ▸ List.mem_cons_self _ _)
      · rcases ih h1 with h2 | h2
        · exact Or.inl h2
        · exact Or.inr (List.mem_cons_of_mem _ h2)

theorem self_mem_dictSet {β : Type} (k : String) (v : β) (l : List (String × β)) :
    (k, v) ∈ dictSet k v l := by
  induction l with
  | nil => simp [dictSet]
  | cons q rest ih =>
    by_cases h : q.1 = k
    · simp [dictSet, h]
    · simp only [dictSet, h, if_neg, not_false_iff]
      exact List.mem_cons_of_mem _ ih

theorem dictSet_of_not_mem {β : Type} (k : String) (v : β) (l : List (String × β))
    (h : ∀ q ∈ l, q.1 ≠ k) : dictSet k v l = l ++ [(k, v)] := by
  induction l with
  | nil => simp [dictSet]
  | cons q rest ih =>
    have hq : q.1 ≠ k := h q (List.mem_cons_self _ _)
    simp only [dictSet, hq, if_neg, not_false_iff, List.cons_append, List.cons.injEq, true_and]
    exact ih fun p hp => h p (List.mem_cons_of_mem _ hp)

theorem dictGet_eq_none_of_forall {β : Type} (k : String) (l : List (String × β))
    (h : ∀ q ∈ l, q.1 ≠ k) : dictGet k l = none := by
  induction l with
  | nil => rfl
  | cons q rest ih =>
    have hq : q.1 ≠ k := h q (List.mem_cons_self _ _)
    simp only [dictGet, hq, if_neg, not_false_iff]
    exact ih fun p hp => h p (List.mem_cons_of_mem _ hp)

theorem forall_of_dictGet_eq_none {β : Type} (k : String) (l : List (String × β))
    (h : dictGet k l = none) : ∀ q ∈ l, q.1 ≠ k := by
  induction l with
  | nil => intro q hq; simp at hq
  | cons p rest ih =>
    intro q hq
    by_cases hp : p.1 = k
    · simp [dictGet, hp] at h
    · rcases List.mem_cons.mp hq with h1 | h1
      · exact h1 ▸ hp
      · exact ih (by simpa [dictGet, hp] using h) q h1

theorem dictRemove_dictSet_of_not_mem {β : Type} (k : String) (v : β)
    (l : List (String × β)) (h : ∀ q ∈ l, q.1 ≠ k) :
    dictRemove k (dictSet k v l) = l := by
  induction l with
  | nil => simp [dictSet, dictRemove]
  | cons q rest ih =>
    have hq : q.1 ≠ k := h q (List.mem_cons_self _ _)
    simp only [dictSet, hq, if_neg, not_false_iff, dictRemove, List.cons.injEq, true_and]
    exact ih fun p hp => h p (List.mem_cons_of_mem _ hp)

theorem countKeys_eq_zero_of_dictGet_none {β : Type} (k : String) (l : List (String × β))
    (h : dictGet k l = none) : countKeys k l = 0 := by
  have hall := forall_of_dictGet_eq_none k l h
  unfold countKeys
  rw [List.countP_eq_zero]
  intro q hq
  simpa using hall q hq

theorem countKeys_append_single {β : Type} (k : String) (v : β) (l : List (String × β)) :
    countKeys k (l ++ [(k, v)]) = countKeys k l + 1 := by
  unfold countKeys
  rw [List.countP_append]
  simp [List.countP_cons]

/-! ### Dedup-check lemmas -/

theorem hashExists_of_mem (h : Nat) (hist : List (String × FileRecord))
    (k : String) (r : FileRecord) (hm : (k, r) ∈ hist) (hh : r.hash = h) :
    hashExists h hist = true := by
  unfold hashExists
  rw [List.any_eq_true]
  exact ⟨(k, r), hm, by simp [hh]⟩

theorem forall_hash_ne_of_hashExists_false (h : Nat) (hist : List (String × FileRecord))
    (hf : hashExists h hist = false) : ∀ q ∈ hist, q.2.hash ≠ h := by
  unfold hashExists at hf
  rw [List.any_eq_false] at hf
  intro q hq
  simpa using hf q hq

theorem dictGet_mem {β : Type} (k : String) (l : List (String × β)) (v : β)
    (hg : dictGet k l = some v) : (k, v) ∈ l := by
  induction l with
  | nil => simp [dictGet] at hg
  | cons q rest ih =>
    obtain ⟨a, b⟩ := q
    by_cases hq : a = k
    · simp only [dictGet, hq, if_pos, Option.some.injEq] at hg
      subst hq
      subst hg
      exact List.mem_cons_self _ _
    · have hq1 : (a, b).1 ≠ k := hq
      simp only [dictGet, hq1, if_neg, not_false_iff] at hg
      exact List.mem_cons_of_mem _ (ih hg)

theorem isStaleOrNew_of_hashExists_false (path : String) (h : Nat)
    (hist : List (String × FileRecord)) (hf : hashExists h hist = false) :
    isStaleOrNew path h hist = true := by
  unfold isStaleOrNew
  cases hg : dictGet path hist with
  | none => rfl
  | some r =>
    have hm : (path, r) ∈ hist := dictGet_mem path hist r hg
    have := forall_hash_ne_of_hashExists_false h hist hf (path, r) hm
    simp [this]

/-! ### send_file lemmas -/

theorem sendFileLoop_success_none (path : String) (outcomes : Nat → AttemptOutcome)
    (attempt : Nat) (st : SendState) (fuel : Nat)
    (ho : outcomes attempt = .success) (hg : dictGet path st.errorMessages = none) :
    sendFileLoop path outcomes attempt st (fuel + 1) = (true, st) := by
  unfold sendFileLoop
  rw [ho, hg]

theorem sendFileLoop_success_some (path : String) (outcomes : Nat → AttemptOutcome)
    (attempt : Nat) (st : SendState) (fuel : Nat) (mid : Nat)
    (ho : outcomes attempt = .success) (hg : dictGet path st.errorMessages = some mid) :
    sendFileLoop path outcomes attempt st (fuel + 1) =
      (true, { st with deletedMsgs := st.deletedMsgs ++ [mid],
                       errorMessages := dictRemove path st.errorMessages }) := by
  unfold sendFileLoop
  rw [ho, hg]

theorem sendFileLoop_rateLimited (path : String) (outcomes : Nat → AttemptOutcome)
    (attempt : Nat) (st : SendState) (fuel : Nat) (r : Nat)
    (ho : outcomes attempt = .rateLimited r) :
    sendFileLoop path outcomes attempt st (fuel + 1) =
      sendFileLoop path outcomes (attempt + 1) { st with waits := st.waits ++ [r] } fuel := by
  conv_lhs => rw [sendFileLoop]
  rw [ho]

theorem sendFileLoop_otherError_last (path : String) (outcomes : Nat → AttemptOutcome)
    (attempt : Nat) (st : SendState)
    (ho : outcomes attempt = .otherError) :
    sendFileLoop path outcomes attempt st 1 =
      (false, { st with postedNotices := st.postedNotices ++ [st.nextMsgId],
                        errorMessages := dictSet path st.nextMsgId st.errorMessages,
                        nextMsgId := st.nextMsgId + 1 }) := by
  conv_lhs => rw [sendFileLoop]
  rw [ho]
  rfl

theorem sendFileLoop_otherError_mid (path : String) (outcomes : Nat → AttemptOutcome)
    (attempt : Nat) (st : SendState) (fuel : Nat)
    (ho : outcomes attempt = .otherError) (hf : fuel ≠ 0) :
    sendFileLoop path outcomes attempt st (fuel + 1) =
      sendFileLoop path outcomes (attempt + 1)
        { st with waits := st.waits ++ [retry_delay] } fuel := by
  conv_lhs => rw [sendFileLoop]
  rw [ho]
  simp [hf]

theorem send_file_success_of_none (path : String) (st : SendState)
    (hg : dictGet path st.errorMessages = none) :
    send_file path (fun _ => .success) st = (true, st) := by
  unfold send_file
  rw [show max_retries = 2 + 1 from rfl]
  exact sendFileLoop_success_none path _ 0 st 2 rfl hg

theorem send_file_success_of_some (path : String) (st : SendState) (mid : Nat)
    (hg : dictGet path st.errorMessages = some mid) :
    send_file path (fun _ => .success) st =
      (true, { st with deletedMsgs := st.deletedMsgs ++ [mid],
                       errorMessages := dictRemove path st.errorMessages }) := by
  unfold send_file
  rw [show max_retries = 2 + 1 from rfl]
  exact sendFileLoop_success_some path _ 0 st 2 mid rfl hg

theorem send_file_success_fst (path : String) (st : SendState) :
    (send_file path (fun _ => .success) st).1 = true := by
  cases hg : dictGet path st.errorMessages with
  | none => rw [send_file_success_of_none path st hg]
  | some mid => rw [send_file_success_of_some path st mid hg]

theorem send_file_allFail (path : String) (st : SendState) :
    send_file path (fun _ => .otherError) st =
      (false, { st with postedNotices := st.postedNotices ++ [st.nextMsgId],
                        errorMessages := dictSet path st.nextMsgId st.errorMessages,
                        nextMsgId := st.nextMsgId + 1,
                        waits := st.waits ++ [retry_delay, retry_delay] }) := by
  unfold send_file
  rw [show max_retries = 2 + 1 from rfl]
  rw [sendFileLoop_otherError_mid path _ 0 st 2 rfl (by decide)]
  rw [show (2 : Nat) = 1 + 1 from rfl]
  rw [sendFileLoop_otherError_mid path _ 1 _ 1 rfl (by decide)]
  rw [sendFileLoop_otherError_last path _ 2 _ rfl]
  simp

/-! ### Chunking lemmas -/

theorem chunksOfFuel_nil (M fuel : Nat) : chunksOfFuel M fuel [] = [] := by
  cases fuel <;> rfl

theorem chunksOfFuel_cons (M fuel : Nat) (x : Nat) (xs : List Nat) :
    chunksOfFuel M (fuel + 1) (x :: xs) =
      (x :: xs).take M :: chunksOfFuel M fuel ((x :: xs).drop M) := rfl

theorem chunksOfFuel_flatten (M : Nat) (hM : 0 < M) :
    ∀ fuel l, l.length ≤ fuel → (chunksOfFuel M fuel l).flatten = l := by
  intro fuel
  induction fuel with
  | zero =>
    intro l hl
    have : l = [] := List.eq_nil_of_length_eq_zero (Nat.le_zero.mp hl)
    subst this
    rfl
  | succ f ih =>
    intro l hl
    cases l with
    | nil => rfl
    | cons x xs =>
      rw [chunksOfFuel_cons, List.flatten_cons, ih _ ?_, List.take_append_drop]
      rw [List.length_drop]
      simp only [List.length_cons] at hl ⊢
      omega

theorem chunksOfFuel_length (M : Nat) (hM : 0 < M) :
    ∀ fuel l, l.length ≤ fuel →
      (chunksOfFuel M fuel l).length = (l.length + M - 1) / M := by
  intro fuel
  induction fuel with
  | zero =>
    intro l hl
    have : l = [] := List.eq_nil_of_length_eq_zero (Nat.le_zero.mp hl)
    subst this
    simp only [chunksOfFuel_nil, List.length_nil]
    exact (Nat.div_eq_of_lt (by omega)).symm
  | succ f ih =>
    intro l hl
    cases l with
    | nil =>
      simp only [chunksOfFuel_nil, List.length_nil]
      exact (Nat.div_eq_of_lt (by omega)).symm
    | cons x xs =>
      rw [chunksOfFuel_cons, List.length_cons]
      rcases le_or_lt M (x :: xs).length with hge | hlt
      · rw [ih _ ?_]
        · rw [List.length_drop]
          have h1 : (x :: xs).length + M - 1 = ((x :: xs).length - M + M - 1) + M := by omega
          rw [h1, Nat.add_div_right _ hM]
        · rw [List.length_drop]
          simp only [List.length_cons] at hl ⊢
          omega
      · rw [List.drop_eq_nil_of_le (Nat.le_of_lt hlt), chunksOfFuel_nil]
        have hlen : 0 < (x :: xs).length := by simp
        simp only [List.length_nil]
        rw [eq_comm]
        apply Nat.div_eq_of_lt_le
        · omega
        · omega

theorem chunksOfFuel_mem_le (M : Nat) :
    ∀ fuel l, ∀ c ∈ chunksOfFuel M fuel l, c.length ≤ M := by
  intro fuel
  induction fuel with
  | zero =>
    intro l c hc
    cases l <;> simp [chunksOfFuel_nil, chunksOfFuel] at hc
  | succ f ih =>
    intro l c hc
    cases l with
    | nil => simp [chunksOfFuel_nil] at hc
    | cons x xs =>
      rw [chunksOfFuel_cons] at hc
      rcases List.mem_cons.mp hc with h1 | h1
      · subst h1
        rw [List.length_take]
        exact min_le_left _ _
      · exact ih _ c h1

theorem chunksOfFuel_getD (M : Nat) (hM : 0 < M) :
    ∀ fuel l, l.length ≤ fuel → ∀ i, i + 1 < (chunksOfFuel M fuel l).length →
      ((chunksOfFuel M fuel l).getD i []).length = M := by
  intro fuel
  induction fuel with
  | zero =>
    intro l hl i hi
    have : l = [] := List.eq_nil_of_length_eq_zero (Nat.le_zero.mp hl)
    subst this
    simp [chunksOfFuel_nil] at hi
  | succ f ih =>
    intro l hl i hi
    cases l with
    | nil => simp [chunksOfFuel_nil] at hi
    | cons x xs =>
      rw [chunksOfFuel_cons] at hi ⊢
      cases i with
      | zero =>
        rw [List.getD_cons_zero, List.length_take]
        rw [List.length_cons] at hi
        by_contra hne
        have hlt : (x :: xs).length < M := by
          rcases le_or_lt M (x :: xs).length with hge | hlt
          · exact absurd (Nat.min_eq_left hge) hne
          · exact hlt
        rw [List.drop_eq_nil_of_le (Nat.le_of_lt hlt), chunksOfFuel_nil] at hi
        simp at hi
      | succ j =>
        rw [List.getD_cons_succ]
        apply ih _ ?_ j ?_
        · rw [List.length_drop]
          simp only [List.length_cons] at hl ⊢
          omega
        · simp only [List.length_cons] at hi
          omega

theorem MAX_FILE_SIZE_pos : 0 < MAX_FILE_SIZE := by norm_num [MAX_FILE_SIZE]

theorem chunksOf_flatten (l : List Nat) :
    (chunksOf MAX_FILE_SIZE l).flatten = l :=
  chunksOfFuel_flatten MAX_FILE_SIZE MAX_FILE_SIZE_pos l.length l (Nat.le_refl _)

theorem chunksOf_length (l : List Nat) :
    (chunksOf MAX_FILE_SIZE l).length = (l.length + MAX_FILE_SIZE - 1) / MAX_FILE_SIZE :=
  chunksOfFuel_length MAX_FILE_SIZE MAX_FILE_SIZE_pos l.length l (Nat.le_refl _)

theorem chunksOf_mem_le (l : List Nat) (c : List Nat) (hc : c ∈ chunksOf MAX_FILE_SIZE l) :
    c.length ≤ MAX_FILE_SIZE :=
  chunksOfFuel_mem_le MAX_FILE_SIZE l.length l c hc

theorem chunksOf_getD (l : List Nat) (i : Nat)
    (hi : i + 1 < (chunksOf MAX_FILE_SIZE l).length) :
    ((chunksOf MAX_FILE_SIZE l).getD i []).length = MAX_FILE_SIZE :=
  chunksOfFuel_getD MAX_FILE_SIZE MAX_FILE_SIZE_pos l.length l (Nat.le_refl _) i hi

theorem chunksOf_replicate_succ (m : Nat) :
    chunksOf (m + 1) (List.replicate (m + 2) 0) = [List.replicate (m + 1) 0, [0]] := by
  unfold chunksOf
  rw [List.length_replicate]
  rw [show List.replicate (m + 2) (0 : Nat) = 0 :: List.replicate (m + 1) 0 from
    List.replicate_succ 0 (m + 1)]
  rw [chunksOfFuel_cons]
  rw [show (0 : Nat) :: List.replicate (m + 1) 0 = List.replicate (m + 2) 0 from
    (List.replicate_succ 0 (m + 1)).symm]
  rw [List.take_replicate, List.drop_replicate]
  rw [Nat.min_eq_left (by omega), show m + 2 - (m + 1) = 1 from by omega, List.replicate_one]
  rw [chunksOfFuel_cons]
  rw [List.take_of_length_le (by simp), List.drop_eq_nil_of_le (by simp), chunksOfFuel_nil]

theorem chunksOf_big :
    chunksOf MAX_FILE_SIZE (List.replicate (MAX_FILE_SIZE + 1) 0) =
      [List.replicate MAX_FILE_SIZE 0, [0]] := by
  rw [show MAX_FILE_SIZE = (MAX_FILE_SIZE - 1) + 1 from by norm_num [MAX_FILE_SIZE]]
  exact chunksOf_replicate_succ (MAX_FILE_SIZE - 1)

/-! ### splitLoop lemmas -/

theorem splitLoop_allOk (base : String) :
    ∀ (chunks : List (List Nat)) (fn counter : Nat) (sst : SendState),
      (splitLoop base allOk chunks fn counter sst).ok = true ∧
      (splitLoop base allOk chunks fn counter sst).counter = counter + chunks.length ∧
      (splitLoop base allOk chunks fn counter sst).sent = namedChunks base fn chunks ∧
      (splitLoop base allOk chunks fn counter sst).calls = chunks.length := by
  intro chunks
  induction chunks with
  | nil => intro fn counter sst; exact ⟨rfl, rfl, rfl, rfl⟩
  | cons c cs ih =>
    intro fn counter sst
    have horacle : allOk fn = fun _ => AttemptOutcome.success := rfl
    simp only [splitLoop, horacle]
    rw [if_pos (send_file_success_fst (base ++ "." ++ pad3 fn) sst)]
    obtain ⟨h1, h2, h3, h4⟩ :=
      ih (fn + 1) (counter + 1) (send_file (base ++ "." ++ pad3 fn) (fun _ => .success) sst).2
    refine ⟨h1, ?_, ?_, ?_⟩
    · simp only [List.length_cons]
      rw [h2]
      omega
    · simp only [namedChunks]
      rw [h3]
    · simp only [List.length_cons]
      rw [h4]

theorem splitLoop_failFrom (base : String) (j : Nat) :
    ∀ (chunks : List (List Nat)) (fn counter : Nat) (sst : SendState),
      fn ≤ j → j < fn + chunks.length →
      (splitLoop base (failFromPart j) chunks fn counter sst).ok = false ∧
      (splitLoop base (failFromPart j) chunks fn counter sst).sent =
        namedChunks base fn (chunks.take (j - fn)) ∧
      (splitLoop base (failFromPart j) chunks fn counter sst).counter = counter + (j - fn) ∧
      (splitLoop base (failFromPart j) chunks fn counter sst).calls = j - fn + 1 := by
  intro chunks
  induction chunks with
  | nil =>
    intro fn counter sst hle hlt
    simp only [List.length_nil] at hlt
    omega
  | cons c cs ih =>
    intro fn counter sst hle hlt
    rcases Nat.lt_or_ge fn j with hfn | hfn
    · have horacle : failFromPart j fn = fun _ => AttemptOutcome.success := by
        funext a
        simp [failFromPart, hfn]
      simp only [splitLoop, horacle]
      rw [if_pos (send_file_success_fst (base ++ "." ++ pad3 fn) sst)]
      dsimp only
      obtain ⟨h1, h2, h3, h4⟩ :=
        ih (fn + 1) (counter + 1) (send_file (base ++ "." ++ pad3 fn) (fun _ => .success) sst).2
          (by omega) (by simp only [List.length_cons] at hlt; omega)
      refine ⟨h1, ?_, ?_, ?_⟩
      · have hjfn : j - fn = (j - (fn + 1)) + 1 := by omega
        rw [hjfn, List.take_succ_cons]
        simp only [namedChunks]
        rw [h2]
      · rw [h3]; omega
      · rw [h4]; omega
    · have hj : j = fn := by omega
      have horacle : failFromPart j fn = fun _ => AttemptOutcome.otherError := by
        funext a
        simp [failFromPart]
        omega
      simp only [splitLoop, horacle]
      rw [send_file_allFail]
      have hz : j - fn = 0 := by omega
      rw [hz]
      simp [namedChunks]

theorem splitLoop_counter_le (base : String) (o : Nat → Nat → AttemptOutcome) :
    ∀ (chunks : List (List Nat)) (fn counter : Nat) (sst : SendState),
      counter ≤ (splitLoop base o chunks fn counter sst).counter := by
  intro chunks
  induction chunks with
  | nil => intro fn counter sst; exact Nat.le_refl _
  | cons c cs ih =>
    intro fn counter sst
    simp only [splitLoop]
    cases hb : (send_file (base ++ "." ++ pad3 fn) (o fn) sst).1 with
    | false => simp only [Bool.false_eq_true, if_false]; exact Nat.le_refl _
    | true =>
      simp only [if_true]
      calc counter ≤ counter + 1 := Nat.le_succ _
        _ ≤ _ := ih (fn + 1) (counter + 1) _

/-! ### process_file case analysis -/

theorem process_file_spec (cfg : Config) (zipBytes : List Nat → List Nat)
    (hashFn : List Nat → Nat) (o : Nat → Nat → AttemptOutcome) (st : BotState)
    (path : String) (content : List Nat) :
    ((process_file cfg zipBytes hashFn o st path content).2.ok = false ∧
      (process_file cfg zipBytes hashFn o st path content).1.fileHistory = st.fileHistory ∧
      (process_file cfg zipBytes hashFn o st path content).1.persisted = st.persisted ∧
      st.fileCounter ≤ (process_file cfg zipBytes hashFn o st path content).1.fileCounter) ∨
    ((process_file cfg zipBytes hashFn o st path content).2.ok = true ∧
      ∃ r : FileRecord,
        (process_file cfg zipBytes hashFn o st path content).1.fileHistory =
          dictSet path r st.fileHistory ∧
        (process_file cfg zipBytes hashFn o st path content).1.persisted =
          (process_file cfg zipBytes hashFn o st path content).1.fileHistory ∧
        r.hash = hashFn content ∧
        r.fileId = (process_file cfg zipBytes hashFn o st path content).1.fileCounter ∧
        st.fileCounter < (process_file cfg zipBytes hashFn o st path content).1.fileCounter) := by
  unfold process_file
  dsimp only
  split
  · left; exact ⟨rfl, rfl, rfl, Nat.le_refl _⟩
  · split
    · left; exact ⟨rfl, rfl, rfl, Nat.le_refl _⟩
    · split
      · split
        · split
          · right
            refine ⟨rfl, _, rfl, rfl, rfl, rfl, ?_⟩
            exact Nat.lt_succ_of_le
              (splitLoop_counter_le (sendBaseName cfg path) o
                (chunksOf MAX_FILE_SIZE (mkArtifact cfg zipBytes path content))
                1 st.fileCounter st.sst)
          · left
            refine ⟨rfl, rfl, rfl, ?_⟩
            exact splitLoop_counter_le (sendBaseName cfg path) o
              (chunksOf MAX_FILE_SIZE (mkArtifact cfg zipBytes path content))
              1 st.fileCounter st.sst
        · split
          · right
            exact ⟨rfl, _, rfl, rfl, rfl, rfl, Nat.lt_succ_self _⟩
          · left; exact ⟨rfl, rfl, rfl, Nat.le_refl _⟩
      · left; exact ⟨rfl, rfl, rfl, Nat.le_refl _⟩

theorem process_file_ok_commit (cfg : Config) (zipBytes : List Nat → List Nat)
    (hashFn : List Nat → Nat) (o : Nat → Nat → AttemptOutcome) (st : BotState)
    (path : String) (content : List Nat)
    (hok : (process_file cfg zipBytes hashFn o st path content).2.ok = true) :
    ∃ r : FileRecord,
      (process_file cfg zipBytes hashFn o st path content).1.fileHistory =
        dictSet path r st.fileHistory ∧
      (process_file cfg zipBytes hashFn o st path content).1.persisted =
        (process_file cfg zipBytes hashFn o st path content).1.fileHistory ∧
      r.hash = hashFn content ∧
      r.fileId = (process_file cfg zipBytes hashFn o st path content).1.fileCounter ∧
      st.fileCounter < (process_file cfg zipBytes hashFn o st path content).1.fileCounter := by
  rcases process_file_spec cfg zipBytes hashFn o st path content with ⟨hf, _⟩ | ⟨_, hr⟩
  · rw [hok] at hf; cases hf
  · exact hr

theorem process_file_fail_frame (cfg : Config) (zipBytes : List Nat → List Nat)
    (hashFn : List Nat → Nat) (o : Nat → Nat → AttemptOutcome) (st : BotState)
    (path : String) (content : List Nat)
    (hok : (process_file cfg zipBytes hashFn o st path content).2.ok = false) :
    (process_file cfg zipBytes hashFn o st path content).1.fileHistory = st.fileHistory ∧
    (process_file cfg zipBytes hashFn o st path content).1.persisted = st.persisted ∧
    st.fileCounter ≤ (process_file cfg zipBytes hashFn o st path content).1.fileCounter := by
  rcases process_file_spec cfg zipBytes hashFn o st path content with ⟨_, h2, h3, h4⟩ | ⟨ht, _⟩
  · exact ⟨h2, h3, h4⟩
  · rw [hok] at ht; cases ht

theorem process_file_skip (cfg : Config) (zipBytes : List Nat → List Nat)
    (hashFn : List Nat → Nat) (o : Nat → Nat → AttemptOutcome) (st : BotState)
    (path : String) (content : List Nat)
    (hhash : hashExists (hashFn content) st.fileHistory = true) :
    process_file cfg zipBytes hashFn o st path content =
      (st, { archived := false, sendCalls := 0, sent := [], ok := false }) := by
  unfold process_file
  dsimp only
  rw [if_pos hhash]

theorem split_and_send_zip_fst (b : String) (a : List Nat) (o : Nat → Nat → AttemptOutcome)
    (c : Nat) (s : SendState) :
    (split_and_send_zip b a o c s).1 = splitLoop b o (chunksOf MAX_FILE_SIZE a) 1 c s := rfl

theorem process_file_split_fail (cfg : Config) (zipBytes : List Nat → List Nat)
    (hashFn : List Nat → Nat) (o : Nat → Nat → AttemptOutcome) (st : BotState)
    (path : String) (content : List Nat)
    (hhash : hashExists (hashFn content) st.fileHistory = false)
    (hext : extOk cfg path = true)
    (hbig : (mkArtifact cfg zipBytes path content).length > MAX_FILE_SIZE)
    (hrz : (split_and_send_zip (sendBaseName cfg path) (mkArtifact cfg zipBytes path content)
        o st.fileCounter st.sst).1.ok = false) :
    process_file cfg zipBytes hashFn o st path content =
      ({ st with
           fileCounter := (split_and_send_zip (sendBaseName cfg path)
             (mkArtifact cfg zipBytes path content) o st.fileCounter st.sst).1.counter,
           sst := (split_and_send_zip (sendBaseName cfg path)
             (mkArtifact cfg zipBytes path content) o st.fileCounter st.sst).1.sst },
       { archived := shouldArchive cfg path,
         sendCalls := (split_and_send_zip (sendBaseName cfg path)
           (mkArtifact cfg zipBytes path content) o st.fileCounter st.sst).1.calls,
         sent := (split_and_send_zip (sendBaseName cfg path)
           (mkArtifact cfg zipBytes path content) o st.fileCounter st.sst).1.sent,
         ok := false }) := by
  have hstale := isStaleOrNew_of_hashExists_false path (hashFn content) st.fileHistory hhash
  unfold process_file
  dsimp only
  rw [if_neg (by simp [hhash]), if_neg (by simp [hext]), if_pos hstale, if_pos hbig,
    if_neg (by simp [hrz])]

theorem process_file_split_success (cfg : Config) (zipBytes : List Nat → List Nat)
    (hashFn : List Nat → Nat) (o : Nat → Nat → AttemptOutcome) (st : BotState)
    (path : String) (content : List Nat)
    (hhash : hashExists (hashFn content) st.fileHistory = false)
    (hext : extOk cfg path = true)
    (hbig : (mkArtifact cfg zipBytes path content).length > MAX_FILE_SIZE)
    (hrz : (split_and_send_zip (sendBaseName cfg path) (mkArtifact cfg zipBytes path content)
        o st.fileCounter st.sst).1.ok = true) :
    process_file cfg zipBytes hashFn o st path content =
      ({ fileHistory := dictSet path
           { hash := hashFn content, sendSuccess := true, encrypted := cfg.enableEncryption,
             encryptionAlgorithm := if cfg.enableEncryption then "AES" else "None",
             fileId := (split_and_send_zip (sendBaseName cfg path)
               (mkArtifact cfg zipBytes path content) o st.fileCounter st.sst).1.counter + 1,
             fileSize := content.length,
             processedSize := (split_and_send_zip (sendBaseName cfg path)
               (mkArtifact cfg zipBytes path content) o st.fileCounter st.sst).2 }
           st.fileHistory,
         fileCounter := (split_and_send_zip (sendBaseName cfg path)
           (mkArtifact cfg zipBytes path content) o st.fileCounter st.sst).1.counter + 1,
         persisted := dictSet path
           { hash := hashFn content, sendSuccess := true, encrypted := cfg.enableEncryption,
             encryptionAlgorithm := if cfg.enableEncryption then "AES" else "None",
             fileId := (split_and_send_zip (sendBaseName cfg path)
               (mkArtifact cfg zipBytes path content) o st.fileCounter st.sst).1.counter + 1,
             fileSize := content.length,
             processedSize := (split_and_send_zip (sendBaseName cfg path)
               (mkArtifact cfg zipBytes path content) o st.fileCounter st.sst).2 }
           st.fileHistory,
         sst := (split_and_send_zip (sendBaseName cfg path)
           (mkArtifact cfg zipBytes path content) o st.fileCounter st.sst).1.sst },
       { archived := shouldArchive cfg path,
         sendCalls := (split_and_send_zip (sendBaseName cfg path)
           (mkArtifact cfg zipBytes path content) o st.fileCounter st.sst).1.calls,
         sent := (split_and_send_zip (sendBaseName cfg path)
           (mkArtifact cfg zipBytes path content) o st.fileCounter st.sst).1.sent,
         ok := true }) := by
  have hstale := isStaleOrNew_of_hashExists_false path (hashFn content) st.fileHistory hhash
  unfold process_file
  dsimp only
  rw [if_neg (by simp [hhash]), if_neg (by simp [hext]), if_pos hstale, if_pos hbig,
    if_pos hrz]

theorem process_file_single_success (cfg : Config) (zipBytes : List Nat → List Nat)
    (hashFn : List Nat → Nat) (o : Nat → Nat → AttemptOutcome) (st : BotState)
    (path : String) (content : List Nat)
    (hhash : hashExists (hashFn content) st.fileHistory = false)
    (hext : extOk cfg path = true)
    (hsmall : ¬ (mkArtifact cfg zipBytes path content).length > MAX_FILE_SIZE)
    (hsend : (send_file (sendBaseName cfg path) (o 1) st.sst).1 = true) :
    process_file cfg zipBytes hashFn o st path content =
      ({ fileHistory := dictSet path
           { hash := hashFn content, sendSuccess := true, encrypted := cfg.enableEncryption,
             encryptionAlgorithm := if cfg.enableEncryption then "AES" else "None",
             fileId := st.fileCounter + 1, fileSize := content.length,
             processedSize := (mkArtifact cfg zipBytes path content).length } st.fileHistory,
         fileCounter := st.fileCounter + 1,
         persisted := dictSet path
           { hash := hashFn content, sendSuccess := true, encrypted := cfg.enableEncryption,
             encryptionAlgorithm := if cfg.enableEncryption then "AES" else "None",
             fileId := st.fileCounter + 1, fileSize := content.length,
             processedSize := (mkArtifact cfg zipBytes path content).length } st.fileHistory,
         sst := (send_file (sendBaseName cfg path) (o 1) st.sst).2 },
       { archived := shouldArchive cfg path, sendCalls := 1,
         sent := [(sendBaseName cfg path, mkArtifact cfg zipBytes path content)],
         ok := true }) := by
  have hstale := isStaleOrNew_of_hashExists_false path (hashFn content) st.fileHistory hhash
  unfold process_file
  dsimp only
  rw [if_neg (by simp [hhash]), if_neg (by simp [hext]), if_pos hstale, if_neg hsmall,
    if_pos hsend]

theorem namedChunks_length (base : String) :
    ∀ (fn : Nat) (cs : List (List Nat)), (namedChunks base fn cs).length = cs.length := by
  intro fn cs
  induction cs generalizing fn with
  | nil => rfl
  | cons c rest ih => simp [namedChunks, ih]

/-! ### Claim theorems -/

/-- C6: Split round-trip.  For an artifact of size `S` split with chunk size
`M = MAX_FILE_SIZE = 45 MiB`, the number of parts produced and sent equals
`⌈S/M⌉ = (S + M - 1) / M`; chunks are named by 1-based zero-padded sequence
`<basename>.NNN` (`namedChunks` pairs chunk `i` with `base ++ "." ++ pad3 i`
starting at 1); every chunk is at most `M` bytes, every chunk except possibly
the last is exactly `M` bytes, and concatenating parts 1..N in order
reproduces the original artifact byte-for-byte. -/
theorem c6_split_round_trip (base : String) (artifact : List Nat) (counter : Nat)
    (sst : SendState) :
    (chunksOf MAX_FILE_SIZE artifact).length =
      (artifact.length + MAX_FILE_SIZE - 1) / MAX_FILE_SIZE ∧
    (chunksOf MAX_FILE_SIZE artifact).flatten = artifact ∧
    (∀ c ∈ chunksOf MAX_FILE_SIZE artifact, c.length ≤ MAX_FILE_SIZE) ∧
    (∀ i, i + 1 < (chunksOf MAX_FILE_SIZE artifact).length →
      ((chunksOf MAX_FILE_SIZE artifact).getD i []).length = MAX_FILE_SIZE) ∧
    (split_and_send_zip base artifact allOk counter sst).1.ok = true ∧
    (split_and_send_zip base artifact allOk counter sst).1.sent =
      namedChunks base 1 (chunksOf MAX_FILE_SIZE artifact) ∧
    (split_and_send_zip base artifact allOk counter sst).1.sent.length =
      (chunksOf MAX_FILE_SIZE artifact).length := by
  obtain ⟨h1, h2, h3, h4⟩ := splitLoop_allOk base (chunksOf MAX_FILE_SIZE artifact) 1 counter sst
  refine ⟨chunksOf_length artifact, chunksOf_flatten artifact, chunksOf_mem_le artifact,
    chunksOf_getD artifact, ?_, ?_, ?_⟩
  · rw [split_and_send_zip_fst]; exact h1
  · rw [split_and_send_zip_fst]; exact h3
  · rw [split_and_send_zip_fst, h3, namedChunks_length]

/-- C6 witness: the split round-trip property evaluated at the concrete
artifact `[1, 2]` (one part, since 2 ≤ 45 MiB). -/
theorem c6_split_round_trip_witness :
    (chunksOf MAX_FILE_SIZE [1, 2]).length =
      (([1, 2] : List Nat).length + MAX_FILE_SIZE - 1) / MAX_FILE_SIZE ∧
    (chunksOf MAX_FILE_SIZE [1, 2]).flatten = [1, 2] ∧
    (∀ c ∈ chunksOf MAX_FILE_SIZE [1, 2], c.length ≤ MAX_FILE_SIZE) ∧
    (∀ i, i + 1 < (chunksOf MAX_FILE_SIZE [1, 2]).length →
      ((chunksOf MAX_FILE_SIZE [1, 2]).getD i []).length = MAX_FILE_SIZE) ∧
    (split_and_send_zip "f" [1, 2] allOk 0 sst0).1.ok = true ∧
    (split_and_send_zip "f" [1, 2] allOk 0 sst0).1.sent =
      namedChunks "f" 1 (chunksOf MAX_FILE_SIZE [1, 2]) ∧
    (split_and_send_zip "f" [1, 2] allOk 0 sst0).1.sent.length =
      (chunksOf MAX_FILE_SIZE [1, 2]).length :=
  c6_split_round_trip "f" [1, 2] 0 sst0

/-- C3 counterexample: the claim says a 429 wait-and-retry does not consume
one of the fixed `max_retries` attempts (only other transient errors do).
In the code the 429 branch sleeps and then the `for` loop simply advances to
the next attempt, so three consecutive rate-limit responses — with no other
transient error at all — exhaust the attempt budget and `send_file` returns
failure, which the claim rules out. -/
theorem c3_counterexample :
    (send_file "p" (fun _ => .rateLimited 3) sst0).1 = false ∧
    (send_file "p" (fun _ => .rateLimited 3) sst0).2.waits = [3, 3, 3] ∧
    (send_file "p" (fun _ => .rateLimited 3) sst0).2.postedNotices = [] :=
  ⟨rfl, rfl, rfl⟩

/-- C3 (amended): on a provider-signalled 429 carrying `Retry-After = r`, the
transport sleeps exactly `r` (hence at least `r`) before the next attempt on
the same unit — but, contrary to the original claim, this wait-and-retry
consumes one of the `max_retries` attempts: the loop continues with one unit
of budget fewer, and an exhausted budget returns failure. -/
theorem c3_rate_limit_backoff_amended (path : String) (outcomes : Nat → AttemptOutcome)
    (attempt : Nat) (st : SendState) (fuel r : Nat)
    (ho : outcomes attempt = .rateLimited r) :
    sendFileLoop path outcomes attempt st (fuel + 1) =
      sendFileLoop path outcomes (attempt + 1) { st with waits := st.waits ++ [r] } fuel ∧
    sendFileLoop path outcomes attempt st 0 = (false, st) :=
  ⟨sendFileLoop_rateLimited path outcomes attempt st fuel r ho, rfl⟩

/-- C3 witness: the amended rate-limit behaviour at a concrete input
(`Retry-After = 7`, first attempt, two units of budget remaining after). -/
theorem c3_rate_limit_backoff_amended_witness :
    (fun _ : Nat => AttemptOutcome.rateLimited 7) 0 = .rateLimited 7 ∧
    (sendFileLoop "w" (fun _ => .rateLimited 7) 0 sst0 (2 + 1) =
      sendFileLoop "w" (fun _ => .rateLimited 7) (0 + 1)
        { sst0 with waits := sst0.waits ++ [7] } 2 ∧
    sendFileLoop "w" (fun _ => .rateLimited 7) 0 sst0 0 = (false, sst0)) :=
  ⟨rfl, c3_rate_limit_backoff_amended "w" (fun _ => .rateLimited 7) 0 sst0 2 7 rfl⟩

/-- C7 counterexample: the claim says every permanently failing delivery
produces exactly one visible error notice remembered in `error_messages`.
A delivery that exhausts all `max_retries` attempts on rate-limit (429)
responses returns failure through the bottom of the loop (bot.py line 183)
without posting any notice and without touching `error_messages`. -/
theorem c7_counterexample :
    (send_file "q" (fun _ => .rateLimited 1) sst0).1 = false ∧
    (send_file "q" (fun _ => .rateLimited 1) sst0).2.postedNotices = [] ∧
    (send_file "q" (fun _ => .rateLimited 1) sst0).2.errorMessages = [] :=
  ⟨rfl, rfl, rfl⟩

/-- C7 (amended): a delivery that fails permanently with a non-rate-limit
transport error on its final attempt posts exactly one visible error notice,
whose id is remembered under the path in `error_messages`; the next
successful delivery of the same path deletes exactly that notice, posts no
new notice, and removes the map entry.  (A delivery that fails purely
through rate-limit responses posts no notice — see the counterexample.) -/
theorem c7_error_retraction_amended (path : String) (st : SendState)
    (hnone : ∀ q ∈ st.errorMessages, q.1 ≠ path) :
    (send_file path (fun _ => .otherError) st).1 = false ∧
    (send_file path (fun _ => .otherError) st).2.postedNotices =
      st.postedNotices ++ [st.nextMsgId] ∧
    dictGet path (send_file path (fun _ => .otherError) st).2.errorMessages =
      some st.nextMsgId ∧
    (send_file path (fun _ => .success)
      (send_file path (fun _ => .otherError) st).2).1 = true ∧
    (send_file path (fun _ => .success)
      (send_file path (fun _ => .otherError) st).2).2.postedNotices =
      st.postedNotices ++ [st.nextMsgId] ∧
    (send_file path (fun _ => .success)
      (send_file path (fun _ => .otherError) st).2).2.deletedMsgs =
      (send_file path (fun _ => .otherError) st).2.deletedMsgs ++ [st.nextMsgId] ∧
    dictGet path (send_file path (fun _ => .success)
      (send_file path (fun _ => .otherError) st).2).2.errorMessages = none := by
  have hget : dictGet path (dictSet path st.nextMsgId st.errorMessages) =
      some st.nextMsgId := dictGet_dictSet_self _ _ _
  rw [send_file_allFail]
  dsimp only
  rw [send_file_success_of_some path _ st.nextMsgId hget]
  refine ⟨rfl, rfl, hget, rfl, rfl, rfl, ?_⟩
  dsimp only
  rw [dictRemove_dictSet_of_not_mem path st.nextMsgId st.errorMessages hnone]
  exact dictGet_eq_none_of_forall path st.errorMessages hnone

/-- C7 witness: the amended retraction behaviour at a concrete state with no
pending notice for path "a" and next message id 5. -/
theorem c7_error_retraction_amended_witness :
    (∀ q ∈ ({ sst0 with nextMsgId := 5 } : SendState).errorMessages, q.1 ≠ "a") ∧
    ((send_file "a" (fun _ => .otherError) { sst0 with nextMsgId := 5 }).1 = false ∧
     (send_file "a" (fun _ => .otherError)
        { sst0 with nextMsgId := 5 }).2.postedNotices = [] ++ [5] ∧
     dictGet "a" (send_file "a" (fun _ => .otherError)
        { sst0 with nextMsgId := 5 }).2.errorMessages = some 5 ∧
     (send_file "a" (fun _ => .success) (send_file "a" (fun _ => .otherError)
        { sst0 with nextMsgId := 5 }).2).1 = true ∧
     (send_file "a" (fun _ => .success) (send_file "a" (fun _ => .otherError)
        { sst0 with nextMsgId := 5 }).2).2.postedNotices = [] ++ [5] ∧
     (send_file "a" (fun _ => .success) (send_file "a" (fun _ => .otherError)
        { sst0 with nextMsgId := 5 }).2).2.deletedMsgs =
       (send_file "a" (fun _ => .otherError)
        { sst0 with nextMsgId := 5 }).2.deletedMsgs ++ [5] ∧
     dictGet "a" (send_file "a" (fun _ => .success) (send_file "a" (fun _ => .otherError)
        { sst0 with nextMsgId := 5 }).2).2.errorMessages = none) :=
  ⟨by decide, c7_error_retraction_amended "a" _ (by decide)⟩

/-- C10: backend frame property — a `POST /event` payload whose `type` is
anything other than `"success"` is appended to the in-memory `events` list
and answered with 200, while `file_history` (in memory and as persisted to
`backend_file_history.json`) is left completely unchanged. -/
theorem c10_event_frame (enc : Bool) (st : BackendState) (e : BackendEvent)
    (hne : e.type ≠ "success") :
    handle_event enc st (some e) = ({ st with events := st.events ++ [e] }, 200) := by
  unfold handle_event
  dsimp only
  rw [if_neg (by simp [hne])]

/-- C10 witness: a concrete `failure` event leaves `file_history` and the
persisted snapshot untouched and returns 200. -/
theorem c10_event_frame_witness :
    ({ type := "failure", file := "a", file_id := 1, hash := 2,
       file_size := 3 } : BackendEvent).type ≠ "success" ∧
    handle_event false
        { events := [],
          fileHistory :=
            [("b", { hash := 9, send_success := true, encrypted := false, file_id := 1,
                     file_size := 4 })],
          persisted :=
            [("b", { hash := 9, send_success := true, encrypted := false, file_id := 1,
                     file_size := 4 })] }
        (some { type := "failure", file := "a", file_id := 1, hash := 2, file_size := 3 }) =
      ({ events :=
           [{ type := "failure", file := "a", file_id := 1, hash := 2, file_size := 3 }],
         fileHistory :=
           [("b", { hash := 9, send_success := true, encrypted := false, file_id := 1,
                    file_size := 4 })],
         persisted :=
           [("b", { hash := 9, send_success := true, encrypted := false, file_id := 1,
                    file_size := 4 })] }, 200) :=
  ⟨by decide, c10_event_frame false _ _ (by decide)⟩

/-- C4: global dedup by content hash.  If no ledger record carries the
fingerprint of `content` and processing path `p1` commits successfully, then
processing a distinct path `p2` with byte-identical content (hence the same
fingerprint, since the hash function is deterministic) returns with the
state completely unchanged, the archiver not run, and zero transport calls —
the early return at bot.py line 319. -/
theorem c4_global_dedup (cfg : Config) (zipBytes : List Nat → List Nat)
    (hashFn : List Nat → Nat) (o1 o2 : Nat → Nat → AttemptOutcome) (st : BotState)
    (p1 p2 : String) (content : List Nat)
    (hne : p1 ≠ p2)
    (hhash : hashExists (hashFn content) st.fileHistory = false)
    (hok : (process_file cfg zipBytes hashFn o1 st p1 content).2.ok = true) :
    process_file cfg zipBytes hashFn o2
        (process_file cfg zipBytes hashFn o1 st p1 content).1 p2 content =
      ((process_file cfg zipBytes hashFn o1 st p1 content).1,
       { archived := false, sendCalls := 0, sent := [], ok := false }) := by
  obtain ⟨r, hhist, hpers, hrh, hrid, hcnt⟩ :=
    process_file_ok_commit cfg zipBytes hashFn o1 st p1 content hok
  apply process_file_skip
  rw [hhist]
  exact hashExists_of_mem (hashFn content) _ p1 r (self_mem_dictSet p1 r st.fileHistory) hrh

/-- C4 witness: two distinct paths "a" and "b" with identical content `[1]`
on an empty ledger — after "a" is delivered, processing "b" is a no-op. -/
theorem c4_global_dedup_witness :
    (("a" : String) ≠ "b") ∧
    (hashExists 7 ([] : List (String × FileRecord)) = false) ∧
    ((process_file ⟨"none", false, []⟩ id (fun _ => 7) allOk
        ⟨[], 0, [], sst0⟩ "a" [1]).2.ok = true) ∧
    (process_file ⟨"none", false, []⟩ id (fun _ => 7) allOk
        (process_file ⟨"none", false, []⟩ id (fun _ => 7) allOk
          ⟨[], 0, [], sst0⟩ "a" [1]).1 "b" [1] =
      ((process_file ⟨"none", false, []⟩ id (fun _ => 7) allOk
          ⟨[], 0, [], sst0⟩ "a" [1]).1,
       { archived := false, sendCalls := 0, sent := [], ok := false })) :=
  ⟨by decide, by decide, by decide,
    c4_global_dedup ⟨"none", false, []⟩ id (fun _ => 7) allOk allOk ⟨[], 0, [], sst0⟩
      "a" "b" [1] (by decide) (by decide) (by decide)⟩

/-- C5: idempotence across cycles.  Processing a new path (no prior record,
extension allowed) whose artifact fits in one payload and whose single send
succeeds commits exactly one ledger entry for that path with one transport
call; processing the same unchanged file again in the next cycle hits the
hash match (bot.py line 319) and returns before any archiving or transport
call, leaving the state — and the single ledger entry — unchanged. -/
theorem c5_idempotence (cfg : Config) (zipBytes : List Nat → List Nat)
    (hashFn : List Nat → Nat) (o1 o2 : Nat → Nat → AttemptOutcome) (st : BotState)
    (path : String) (content : List Nat)
    (hhash : hashExists (hashFn content) st.fileHistory = false)
    (hext : extOk cfg path = true)
    (hnew : dictGet path st.fileHistory = none)
    (hsmall : ¬ (mkArtifact cfg zipBytes path content).length > MAX_FILE_SIZE)
    (hsend : (send_file (sendBaseName cfg path) (o1 1) st.sst).1 = true) :
    (process_file cfg zipBytes hashFn o1 st path content).2.sendCalls = 1 ∧
    (process_file cfg zipBytes hashFn o1 st path content).2.ok = true ∧
    countKeys path (process_file cfg zipBytes hashFn o1 st path content).1.fileHistory = 1 ∧
    process_file cfg zipBytes hashFn o2
        (process_file cfg zipBytes hashFn o1 st path content).1 path content =
      ((process_file cfg zipBytes hashFn o1 st path content).1,
       { archived := false, sendCalls := 0, sent := [], ok := false }) := by
  have hforall : ∀ q ∈ st.fileHistory, q.1 ≠ path :=
    forall_of_dictGet_eq_none path st.fileHistory hnew
  rw [process_file_single_success cfg zipBytes hashFn o1 st path content hhash hext hsmall hsend]
  dsimp only
  refine ⟨rfl, rfl, ?_, ?_⟩
  · rw [dictSet_of_not_mem _ _ _ hforall, countKeys_append_single,
      countKeys_eq_zero_of_dictGet_none path st.fileHistory hnew]
  · apply process_file_skip
    dsimp only
    exact hashExists_of_mem (hashFn content) _ path _
      (self_mem_dictSet path _ st.fileHistory) rfl

/-- C5 witness: path "a" with content `[2]` delivered once on an empty
ledger, then processed again unchanged — one entry, one send, then a no-op. -/
theorem c5_idempotence_witness :
    (hashExists 8 ([] : List (String × FileRecord)) = false) ∧
    (extOk ⟨"none", false, []⟩ "a" = true) ∧
    (dictGet "a" ([] : List (String × FileRecord)) = none) ∧
    (¬ (mkArtifact ⟨"none", false, []⟩ id "a" [2]).length > MAX_FILE_SIZE) ∧
    ((send_file (sendBaseName ⟨"none", false, []⟩ "a") (allOk 1) sst0).1 = true) ∧
    ((process_file ⟨"none", false, []⟩ id (fun _ => 8) allOk
        ⟨[], 0, [], sst0⟩ "a" [2]).2.sendCalls = 1 ∧
     (process_file ⟨"none", false, []⟩ id (fun _ => 8) allOk
        ⟨[], 0, [], sst0⟩ "a" [2]).2.ok = true ∧
     countKeys "a" (process_file ⟨"none", false, []⟩ id (fun _ => 8) allOk
        ⟨[], 0, [], sst0⟩ "a" [2]).1.fileHistory = 1 ∧
     process_file ⟨"none", false, []⟩ id (fun _ => 8) allOk
        (process_file ⟨"none", false, []⟩ id (fun _ => 8) allOk
          ⟨[], 0, [], sst0⟩ "a" [2]).1 "a" [2] =
      ((process_file ⟨"none", false, []⟩ id (fun _ => 8) allOk
          ⟨[], 0, [], sst0⟩ "a" [2]).1,
       { archived := false, sendCalls := 0, sent := [], ok := false })) :=
  ⟨by decide, by decide, by decide, by decide, by decide,
    c5_idempotence ⟨"none", false, []⟩ id (fun _ => 8) allOk allOk ⟨[], 0, [], sst0⟩
      "a" [2] (by decide) (by decide) (by decide) (by decide) (by decide)⟩

/-- C9 counterexample: the spec's `nextSequenceId` returns 0 on an empty
ledger, but the code recovers `file_counter = 0` from an empty ledger
(bot.py line 419) and then increments before assigning (line 359), so the
first `file_id` ever assigned is 1, not 0. -/
theorem c9_counterexample :
    nextSequenceId_spec [] = 0 ∧
    recoverFileCounter [] = 0 ∧
    Option.map FileRecord.fileId (dictGet "a"
      (process_file ⟨"none", false, []⟩ id (fun _ => 5) allOk
        ⟨[], recoverFileCounter [], [], sst0⟩ "a" [9]).1.fileHistory) = some 1 :=
  ⟨rfl, rfl, by decide⟩

/-- C9 (amended): the counter recovered at startup equals the ledger-wide
maximum `file_id` (0 when the ledger is empty), and the first sequence id
assigned after a restart — for an unsplit delivery whose single send
succeeds — is that maximum plus one.  In particular the first id assigned on
an empty ledger is 1, not 0 as the spec's `nextSequenceId` states. -/
theorem c9_next_sequence_id_amended (cfg : Config) (zipBytes : List Nat → List Nat)
    (hashFn : List Nat → Nat) (o : Nat → Nat → AttemptOutcome)
    (hist persisted0 : List (String × FileRecord)) (sst : SendState)
    (path : String) (content : List Nat)
    (hhash : hashExists (hashFn content) hist = false)
    (hext : extOk cfg path = true)
    (hsmall : ¬ (mkArtifact cfg zipBytes path content).length > MAX_FILE_SIZE)
    (hsend : (send_file (sendBaseName cfg path) (o 1) sst).1 = true) :
    recoverFileCounter hist = maxFileId hist ∧
    Option.map FileRecord.fileId (dictGet path
      (process_file cfg zipBytes hashFn o
        ⟨hist, recoverFileCounter hist, persisted0, sst⟩ path content).1.fileHistory) =
      some (maxFileId hist + 1) := by
  constructor
  · rfl
  · rw [process_file_single_success cfg zipBytes hashFn o
      ⟨hist, recoverFileCounter hist, persisted0, sst⟩ path content hhash hext hsmall hsend]
    dsimp only
    rw [dictGet_dictSet_self]
    rfl

/-- C9 witness: a ledger whose only record has `file_id = 4`; after restart
the recovered counter is 4 and the next delivered file gets id 5. -/
theorem c9_next_sequence_id_amended_witness :
    (hashExists 5 [("old", { hash := 1, sendSuccess := true, encrypted := false, encryptionAlgorithm := "None", fileId := 4, fileSize := 3, processedSize := 3 })] = false) ∧
    (extOk ⟨"none", false, []⟩ "a" = true) ∧
    (¬ (mkArtifact ⟨"none", false, []⟩ id "a" [9]).length > MAX_FILE_SIZE) ∧
    ((send_file (sendBaseName ⟨"none", false, []⟩ "a") (allOk 1) sst0).1 = true) ∧
    (recoverFileCounter [("old", { hash := 1, sendSuccess := true, encrypted := false, encryptionAlgorithm := "None", fileId := 4, fileSize := 3, processedSize := 3 })] =
      maxFileId [("old", { hash := 1, sendSuccess := true, encrypted := false, encryptionAlgorithm := "None", fileId := 4, fileSize := 3, processedSize := 3 })] ∧
     Option.map FileRecord.fileId (dictGet "a"
      (process_file ⟨"none", false, []⟩ id (fun _ => 5) allOk
        ⟨[("old", { hash := 1, sendSuccess := true, encrypted := false, encryptionAlgorithm := "None", fileId := 4, fileSize := 3, processedSize := 3 })],
         recoverFileCounter [("old", { hash := 1, sendSuccess := true, encrypted := false, encryptionAlgorithm := "None", fileId := 4, fileSize := 3, processedSize := 3 })],
         [], sst0⟩ "a" [9]).1.fileHistory) =
      some (maxFileId [("old", { hash := 1, sendSuccess := true, encrypted := false, encryptionAlgorithm := "None", fileId := 4, fileSize := 3, processedSize := 3 })] + 1)) :=
  ⟨by decide, by decide, by decide, by decide,
    c9_next_sequence_id_amended ⟨"none", false, []⟩ id (fun _ => 5) allOk
      [("old", { hash := 1, sendSuccess := true, encrypted := false, encryptionAlgorithm := "None", fileId := 4, fileSize := 3, processedSize := 3 })] [] sst0 "a" [9]
      (by decide) (by decide) (by decide) (by decide)⟩

/-- C2 (amended): sequence ids are globally unique and strictly increasing —
every id already in the ledger is bounded by the running `file_counter`,
`process_file` never decreases the counter, and any record it adds carries
an id strictly greater than every id previously in the ledger.  Contrary to
the original claim, the next id is *not* `max + 1` in general and the
maximum after `k` deliveries is *not* `k`: the counter also advances once
per chunk sent (bot.py line 231), so a split delivery with `N` parts
advances it by `N + 1` — see the counterexample. -/
theorem c2_sequence_monotonicity_amended (cfg : Config) (zipBytes : List Nat → List Nat)
    (hashFn : List Nat → Nat) (o : Nat → Nat → AttemptOutcome) (st : BotState)
    (path : String) (content : List Nat)
    (hinv : ∀ q ∈ st.fileHistory, q.2.fileId ≤ st.fileCounter) :
    (∀ q ∈ (process_file cfg zipBytes hashFn o st path content).1.fileHistory,
      q.2.fileId ≤ (process_file cfg zipBytes hashFn o st path content).1.fileCounter) ∧
    (∀ qnew ∈ (process_file cfg zipBytes hashFn o st path content).1.fileHistory,
      qnew ∉ st.fileHistory →
      ∀ qold ∈ st.fileHistory, qold.2.fileId < qnew.2.fileId) ∧
    st.fileCounter ≤ (process_file cfg zipBytes hashFn o st path content).1.fileCounter := by
  rcases process_file_spec cfg zipBytes hashFn o st path content with
    ⟨_, h2, _, h4⟩ | ⟨_, r, hhist, _, _, hrid, hcnt⟩
  · refine ⟨?_, ?_, h4⟩
    · intro q hq
      rw [h2] at hq
      exact Nat.le_trans (hinv q hq) h4
    · intro qnew hqnew hnot
      rw [h2] at hqnew
      exact absurd hqnew hnot
  · refine ⟨?_, ?_, Nat.le_of_lt hcnt⟩
    · intro q hq
      rw [hhist] at hq
      rcases mem_dictSet path r st.fileHistory q hq with h | h
      · rw [h]
        exact Nat.le_of_eq hrid
      · exact Nat.le_trans (hinv q h) (Nat.le_of_lt hcnt)
    · intro qnew hqnew hnot qold hqold
      rw [hhist] at hqnew
      rcases mem_dictSet path r st.fileHistory qnew hqnew with h | h
      · rw [h]
        dsimp only
        rw [hrid]
        exact Nat.lt_of_le_of_lt (hinv qold hqold) hcnt
      · exact absurd h hnot

/-- C2 witness: the amended invariant on an empty ledger. -/
theorem c2_sequence_monotonicity_amended_witness :
    (∀ q ∈ (⟨[], 0, [], sst0⟩ : BotState).fileHistory, q.2.fileId ≤
      (⟨[], 0, [], sst0⟩ : BotState).fileCounter) ∧
    ((∀ q ∈ (process_file ⟨"none", false, []⟩ id (fun _ => 6) allOk
        ⟨[], 0, [], sst0⟩ "a" [4]).1.fileHistory,
      q.2.fileId ≤ (process_file ⟨"none", false, []⟩ id (fun _ => 6) allOk
        ⟨[], 0, [], sst0⟩ "a" [4]).1.fileCounter) ∧
    (∀ qnew ∈ (process_file ⟨"none", false, []⟩ id (fun _ => 6) allOk
        ⟨[], 0, [], sst0⟩ "a" [4]).1.fileHistory,
      qnew ∉ (⟨[], 0, [], sst0⟩ : BotState).fileHistory →
      ∀ qold ∈ (⟨[], 0, [], sst0⟩ : BotState).fileHistory,
        qold.2.fileId < qnew.2.fileId) ∧
    (⟨[], 0, [], sst0⟩ : BotState).fileCounter ≤
      (process_file ⟨"none", false, []⟩ id (fun _ => 6) allOk
        ⟨[], 0, [], sst0⟩ "a" [4]).1.fileCounter) :=
  ⟨by decide,
    c2_sequence_monotonicity_amended ⟨"none", false, []⟩ id (fun _ => 6) allOk
      ⟨[], 0, [], sst0⟩ "a" [4] (by decide)⟩

/-- C2 counterexample: one successful delivery (`k = 1`) of a file whose
artifact is one byte over `MAX_FILE_SIZE` — so it splits into `N = 2` parts —
leaves the ledger with a single record whose `file_id` is 3, not 1: the
global counter is incremented once per sent chunk (bot.py line 231) and once
more on commit (line 359), so the id assigned is not `max + 1` and the
ledger maximum after `k` successful deliveries is not `k`. -/
theorem c2_counterexample :
    (process_file ⟨"none", false, []⟩ id (fun _ => 3) allOk ⟨[], 0, [], sst0⟩ "a"
        (List.replicate (MAX_FILE_SIZE + 1) 0)).2.ok = true ∧
    (process_file ⟨"none", false, []⟩ id (fun _ => 3) allOk ⟨[], 0, [], sst0⟩ "a"
        (List.replicate (MAX_FILE_SIZE + 1) 0)).1.fileHistory.length = 1 ∧
    maxFileId (process_file ⟨"none", false, []⟩ id (fun _ => 3) allOk ⟨[], 0, [], sst0⟩ "a"
        (List.replicate (MAX_FILE_SIZE + 1) 0)).1.fileHistory = 3 := by
  have hext : extOk ⟨"none", false, []⟩ "a" = true := by decide
  have hbig : (mkArtifact ⟨"none", false, []⟩ id "a"
      (List.replicate (MAX_FILE_SIZE + 1) 0)).length > MAX_FILE_SIZE := by
    show (List.replicate (MAX_FILE_SIZE + 1) (0 : Nat)).length > MAX_FILE_SIZE
    rw [List.length_replicate]
    exact Nat.lt_succ_self _
  have hrz : (split_and_send_zip (sendBaseName ⟨"none", false, []⟩ "a")
      (mkArtifact ⟨"none", false, []⟩ id "a" (List.replicate (MAX_FILE_SIZE + 1) 0)) allOk
      (⟨[], 0, [], sst0⟩ : BotState).fileCounter
      (⟨[], 0, [], sst0⟩ : BotState).sst).1.ok = true := by
    rw [split_and_send_zip_fst]
    exact (splitLoop_allOk _ _ _ _ _).1
  have hlen : (chunksOf MAX_FILE_SIZE (mkArtifact ⟨"none", false, []⟩ id "a"
      (List.replicate (MAX_FILE_SIZE + 1) 0))).length = 2 := by
    show (chunksOf MAX_FILE_SIZE (List.replicate (MAX_FILE_SIZE + 1) 0)).length = 2
    rw [chunksOf_big]
    rfl
  have hc : (split_and_send_zip (sendBaseName ⟨"none", false, []⟩ "a")
      (mkArtifact ⟨"none", false, []⟩ id "a" (List.replicate (MAX_FILE_SIZE + 1) 0)) allOk
      (⟨[], 0, [], sst0⟩ : BotState).fileCounter
      (⟨[], 0, [], sst0⟩ : BotState).sst).1.counter = 2 := by
    rw [split_and_send_zip_fst]
    rw [(splitLoop_allOk (sendBaseName ⟨"none", false, []⟩ "a")
      (chunksOf MAX_FILE_SIZE (mkArtifact ⟨"none", false, []⟩ id "a"
        (List.replicate (MAX_FILE_SIZE + 1) 0))) 1
      (⟨[], 0, [], sst0⟩ : BotState).fileCounter
      (⟨[], 0, [], sst0⟩ : BotState).sst).2.1]
    rw [hlen]
  have hfst : ∀ (p : String) (r : FileRecord),
      maxFileId (dictSet p r (⟨[], 0, [], sst0⟩ : BotState).fileHistory) = r.fileId := by
    intro p r
    show max r.fileId 0 = r.fileId
    exact Nat.max_eq_left (Nat.zero_le _)
  have hsingle : ∀ (p : String) (r : FileRecord),
      (dictSet p r (⟨[], 0, [], sst0⟩ : BotState).fileHistory).length = 1 := fun p r => rfl
  have hfid : ∀ (a : Nat) (b c : Bool) (d : String) (x e f : Nat),
      ({ hash := a, sendSuccess := b, encrypted := c, encryptionAlgorithm := d,
         fileId := x, fileSize := e, processedSize := f } : FileRecord).fileId = x :=
    fun a b c d x e f => rfl
  rw [process_file_split_success ⟨"none", false, []⟩ id (fun _ => 3) allOk
    ⟨[], 0, [], sst0⟩ "a" (List.replicate (MAX_FILE_SIZE + 1) 0) rfl hext hbig hrz]
  refine ⟨rfl, hsingle _ _, ?_⟩
  rw [hfst, hfid, hc]

/-- C1: atomicity under mid-split failure.  For a monitored file whose artifact
exceeds `MAX_FILE_SIZE` and splits into `N` chunks, if part `j` (1 ≤ j ≤ N)
fails permanently while every earlier part succeeds, then: the cycle ends
without the terminal-success branch, the in-memory ledger and the persisted
ledger are exactly what they were before, and only parts `1..j-1` were
delivered.  The next cycle (here: all parts succeed) re-sends the complete
artifact — all `N` parts, named from part 1 — rather than only the failed
tail, and commits. -/
theorem c1_split_failure_atomicity (cfg : Config) (zipBytes : List Nat → List Nat)
    (hashFn : List Nat → Nat) (st : BotState) (path : String) (content : List Nat) (j : Nat)
    (hhash : hashExists (hashFn content) st.fileHistory = false)
    (hext : extOk cfg path = true)
    (hbig : (mkArtifact cfg zipBytes path content).length > MAX_FILE_SIZE)
    (hj1 : 1 ≤ j)
    (hjN : j ≤ (chunksOf MAX_FILE_SIZE (mkArtifact cfg zipBytes path content)).length) :
    (process_file cfg zipBytes hashFn (failFromPart j) st path content).2.ok = false ∧
    (process_file cfg zipBytes hashFn (failFromPart j) st path content).1.fileHistory =
      st.fileHistory ∧
    (process_file cfg zipBytes hashFn (failFromPart j) st path content).1.persisted =
      st.persisted ∧
    (process_file cfg zipBytes hashFn (failFromPart j) st path content).2.sent =
      namedChunks (sendBaseName cfg path) 1
        ((chunksOf MAX_FILE_SIZE (mkArtifact cfg zipBytes path content)).take (j - 1)) ∧
    (process_file cfg zipBytes hashFn allOk
        (process_file cfg zipBytes hashFn (failFromPart j) st path content).1
        path content).2.ok = true ∧
    (process_file cfg zipBytes hashFn allOk
        (process_file cfg zipBytes hashFn (failFromPart j) st path content).1
        path content).2.sent =
      namedChunks (sendBaseName cfg path) 1
        (chunksOf MAX_FILE_SIZE (mkArtifact cfg zipBytes path content)) ∧
    (process_file cfg zipBytes hashFn allOk
        (process_file cfg zipBytes hashFn (failFromPart j) st path content).1
        path content).2.sent.length =
      (chunksOf MAX_FILE_SIZE (mkArtifact cfg zipBytes path content)).length := by
  obtain ⟨hfo, hfsent, hfcnt, hfcalls⟩ :=
    splitLoop_failFrom (sendBaseName cfg path) j
      (chunksOf MAX_FILE_SIZE (mkArtifact cfg zipBytes path content)) 1
      st.fileCounter st.sst hj1 (by omega)
  have hrz1 : (split_and_send_zip (sendBaseName cfg path)
      (mkArtifact cfg zipBytes path content) (failFromPart j)
      st.fileCounter st.sst).1.ok = false := by
    rw [split_and_send_zip_fst]
    exact hfo
  rw [process_file_split_fail cfg zipBytes hashFn (failFromPart j) st path content
    hhash hext hbig hrz1]
  set st1 : BotState := { st with
    fileCounter := (split_and_send_zip (sendBaseName cfg path)
      (mkArtifact cfg zipBytes path content) (failFromPart j) st.fileCounter st.sst).1.counter,
    sst := (split_and_send_zip (sendBaseName cfg path)
      (mkArtifact cfg zipBytes path content) (failFromPart j) st.fileCounter st.sst).1.sst }
    with hst1
  have hhash1 : hashExists (hashFn content) st1.fileHistory = false := by
    rw [hst1]
    exact hhash
  have hrz2 : (split_and_send_zip (sendBaseName cfg path)
      (mkArtifact cfg zipBytes path content) allOk st1.fileCounter st1.sst).1.ok = true := by
    rw [split_and_send_zip_fst]
    exact (splitLoop_allOk _ _ _ _ _).1
  rw [process_file_split_success cfg zipBytes hashFn allOk st1 path content
    hhash1 hext hbig hrz2]
  refine ⟨rfl, rfl, rfl, ?_, rfl, ?_, ?_⟩
  · show (split_and_send_zip (sendBaseName cfg path)
      (mkArtifact cfg zipBytes path content) (failFromPart j)
      st.fileCounter st.sst).1.sent = _
    rw [split_and_send_zip_fst, hfsent]
  · show (split_and_send_zip (sendBaseName cfg path)
      (mkArtifact cfg zipBytes path content) allOk st1.fileCounter st1.sst).1.sent = _
    rw [split_and_send_zip_fst]
    exact (splitLoop_allOk _ _ _ _ _).2.2.1
  · show (split_and_send_zip (sendBaseName cfg path)
      (mkArtifact cfg zipBytes path content) allOk st1.fileCounter st1.sst).1.sent.length = _
    rw [split_and_send_zip_fst, (splitLoop_allOk _ _ _ _ _).2.2.1, namedChunks_length]

/-- C1 witness: concrete artifact of `MAX_FILE_SIZE + 1` zero bytes (2 parts)
failing at part 1: nothing is sent or committed in the failing cycle, and the
next cycle sends both parts from part 1 and commits. -/
theorem c1_split_failure_atomicity_witness :
    (hashExists ((fun _ => 11) (List.replicate (MAX_FILE_SIZE + 1) 0))
      (⟨[], 0, [], sst0⟩ : BotState).fileHistory = false) ∧
    (extOk ⟨"none", false, []⟩ "a" = true) ∧
    ((mkArtifact ⟨"none", false, []⟩ id "a"
      (List.replicate (MAX_FILE_SIZE + 1) 0)).length > MAX_FILE_SIZE) ∧
    (1 ≤ 1) ∧
    (1 ≤ (chunksOf MAX_FILE_SIZE (mkArtifact ⟨"none", false, []⟩ id "a"
      (List.replicate (MAX_FILE_SIZE + 1) 0))).length) ∧
    ((process_file ⟨"none", false, []⟩ id (fun _ => 11) (failFromPart 1)
        ⟨[], 0, [], sst0⟩ "a" (List.replicate (MAX_FILE_SIZE + 1) 0)).2.ok = false ∧
     (process_file ⟨"none", false, []⟩ id (fun _ => 11) (failFromPart 1)
        ⟨[], 0, [], sst0⟩ "a" (List.replicate (MAX_FILE_SIZE + 1) 0)).1.fileHistory =
       (⟨[], 0, [], sst0⟩ : BotState).fileHistory ∧
     (process_file ⟨"none", false, []⟩ id (fun _ => 11) (failFromPart 1)
        ⟨[], 0, [], sst0⟩ "a" (List.replicate (MAX_FILE_SIZE + 1) 0)).1.persisted =
       (⟨[], 0, [], sst0⟩ : BotState).persisted ∧
     (process_file ⟨"none", false, []⟩ id (fun _ => 11) (failFromPart 1)
        ⟨[], 0, [], sst0⟩ "a" (List.replicate (MAX_FILE_SIZE + 1) 0)).2.sent =
       namedChunks (sendBaseName ⟨"none", false, []⟩ "a") 1
         ((chunksOf MAX_FILE_SIZE (mkArtifact ⟨"none", false, []⟩ id "a"
           (List.replicate (MAX_FILE_SIZE + 1) 0))).take (1 - 1)) ∧
     (process_file ⟨"none", false, []⟩ id (fun _ => 11) allOk
        (process_file ⟨"none", false, []⟩ id (fun _ => 11) (failFromPart 1)
          ⟨[], 0, [], sst0⟩ "a" (List.replicate (MAX_FILE_SIZE + 1) 0)).1
        "a" (List.replicate (MAX_FILE_SIZE + 1) 0)).2.ok = true ∧
     (process_file ⟨"none", false, []⟩ id (fun _ => 11) allOk
        (process_file ⟨"none", false, []⟩ id (fun _ => 11) (failFromPart 1)
          ⟨[], 0, [], sst0⟩ "a" (List.replicate (MAX_FILE_SIZE + 1) 0)).1
        "a" (List.replicate (MAX_FILE_SIZE + 1) 0)).2.sent =
       namedChunks (sendBaseName ⟨"none", false, []⟩ "a") 1
         (chunksOf MAX_FILE_SIZE (mkArtifact ⟨"none", false, []⟩ id "a"
           (List.replicate (MAX_FILE_SIZE + 1) 0))) ∧
     (process_file ⟨"none", false, []⟩ id (fun _ => 11) allOk
        (process_file ⟨"none", false, []⟩ id (fun _ => 11) (failFromPart 1)
          ⟨[], 0, [], sst0⟩ "a" (List.replicate (MAX_FILE_SIZE + 1) 0)).1
        "a" (List.replicate (MAX_FILE_SIZE + 1) 0)).2.sent.length =
       (chunksOf MAX_FILE_SIZE (mkArtifact ⟨"none", false, []⟩ id "a"
         (List.replicate (MAX_FILE_SIZE + 1) 0))).length) :=
  ⟨rfl, by decide,
   by
    show (List.replicate (MAX_FILE_SIZE + 1) (0 : Nat)).length > MAX_FILE_SIZE
    rw [List.length_replicate]
    exact Nat.lt_succ_self _,
   by decide,
   by
    show 1 ≤ (chunksOf MAX_FILE_SIZE (List.replicate (MAX_FILE_SIZE + 1) 0)).length
    rw [chunksOf_big]
    simp,
   c1_split_failure_atomicity ⟨"none", false, []⟩ id (fun _ => 11) ⟨[], 0, [], sst0⟩
     "a" (List.replicate (MAX_FILE_SIZE + 1) 0) 1 rfl (by decide)
     (by
       show (List.replicate (MAX_FILE_SIZE + 1) (0 : Nat)).length > MAX_FILE_SIZE
       rw [List.length_replicate]
       exact Nat.lt_succ_self _)
     (by decide)
     (by
       show 1 ≤ (chunksOf MAX_FILE_SIZE (List.replicate (MAX_FILE_SIZE + 1) 0)).length
       rw [chunksOf_big]
       simp)⟩

/-- C8 counterexample: the claim says a transient per-candidate error does
not abort the cycle for the remaining candidates.  In `main` the candidate
loop (bot.py lines 458-459) has no per-candidate handler, so when the first
candidate raises (e.g. `IOError` in `calculate_md5`), the second candidate —
which would have been processed — is never reached in this cycle:
`processed = []` and the loop aborts into `main`'s `except` clause. -/
theorem c8_counterexample :
    runCandidates (process_file ⟨"none", false, []⟩ id (fun _ => 2) allOk)
      ⟨[], 0, [], sst0⟩ [("a", .raises), ("b", .proceeds [1])] =
      { state := ⟨[], 0, [], sst0⟩, processed := [], aborted := true } := rfl

/-- C8 (amended): an exception while processing one candidate aborts the
remainder of the cycle — exactly the candidates before the raising one are
processed, the rest are skipped — but it is caught at cycle level: the
scheduler sleeps the normal interval (same as a clean cycle) and the next
cycle starts over; a cycle whose candidates all proceed processes every one
of them. -/
theorem c8_cycle_abort_amended
    (pf : BotState → String → List Nat → BotState × ProcessLog) (interval : Nat)
    (st : BotState) (p : String) (pre rest : List (String × CandidateStep))
    (hpre : ∀ q ∈ pre, q.2 ≠ CandidateStep.raises) :
    runCandidates pf st (pre ++ (p, CandidateStep.raises) :: rest) =
      { state := (runCandidates pf st pre).state,
        processed := pre.map Prod.fst, aborted := true } ∧
    (runCandidates pf st pre).processed = pre.map Prod.fst ∧
    (runCandidates pf st pre).aborted = false ∧
    (runCycle pf interval st (pre ++ (p, CandidateStep.raises) :: rest)).2 = interval := by
  have key : ∀ (pre : List (String × CandidateStep)) (st : BotState),
      (∀ q ∈ pre, q.2 ≠ CandidateStep.raises) →
      runCandidates pf st (pre ++ (p, CandidateStep.raises) :: rest) =
        { state := (runCandidates pf st pre).state,
          processed := pre.map Prod.fst, aborted := true } ∧
      (runCandidates pf st pre).processed = pre.map Prod.fst ∧
      (runCandidates pf st pre).aborted = false := by
    intro pre
    induction pre with
    | nil =>
      intro st _
      exact ⟨rfl, rfl, rfl⟩
    | cons q pre ih =>
      intro st hpre
      obtain ⟨qp, qs⟩ := q
      cases qs with
      | raises => exact absurd rfl (hpre (qp, .raises) (List.mem_cons_self _ _))
      | proceeds c =>
        obtain ⟨k1, k2, k3⟩ :=
          ih (pf st qp c).1 (fun q hq => hpre q (List.mem_cons_of_mem _ hq))
        rw [List.cons_append]
        simp only [runCandidates, List.map_cons]
        rw [k1]
        exact ⟨rfl, by rw [k2], k3⟩
  obtain ⟨k1, k2, k3⟩ := key pre st hpre
  exact ⟨k1, k2, k3, rfl⟩

/-- C8 witness: candidate "x" proceeds, then "a" raises, then "b" would
proceed — only "x" is processed this cycle, the scheduler still sleeps the
normal interval, and a raise-free initial segment is processed in full. -/
theorem c8_cycle_abort_amended_witness :
    (∀ q ∈ [(("x" : String), CandidateStep.proceeds [2])], q.2 ≠ CandidateStep.raises) ∧
    (runCandidates (process_file ⟨"none", false, []⟩ id (fun _ => 2) allOk)
        ⟨[], 0, [], sst0⟩
        ([("x", CandidateStep.proceeds [2])] ++ ("a", CandidateStep.raises) ::
          [("b", CandidateStep.proceeds [3])]) =
      { state := (runCandidates (process_file ⟨"none", false, []⟩ id (fun _ => 2) allOk)
          ⟨[], 0, [], sst0⟩ [("x", CandidateStep.proceeds [2])]).state,
        processed := [("x", CandidateStep.proceeds [2])].map Prod.fst, aborted := true } ∧
    (runCandidates (process_file ⟨"none", false, []⟩ id (fun _ => 2) allOk)
        ⟨[], 0, [], sst0⟩ [("x", CandidateStep.proceeds [2])]).processed =
      [("x", CandidateStep.proceeds [2])].map Prod.fst ∧
    (runCandidates (process_file ⟨"none", false, []⟩ id (fun _ => 2) allOk)
        ⟨[], 0, [], sst0⟩ [("x", CandidateStep.proceeds [2])]).aborted = false ∧
    (runCycle (process_file ⟨"none", false, []⟩ id (fun _ => 2) allOk) 60
        ⟨[], 0, [], sst0⟩
        ([("x", CandidateStep.proceeds [2])] ++ ("a", CandidateStep.raises) ::
          [("b", CandidateStep.proceeds [3])])).2 = 60) :=
  ⟨by decide,
    c8_cycle_abort_amended (process_file ⟨"none", false, []⟩ id (fun _ => 2) allOk) 60
      ⟨[], 0, [], sst0⟩ "a" [("x", CandidateStep.proceeds [2])]
      [("b", CandidateStep.proceeds [3])] (by decide)⟩
